import Mathlib

/-!
Verification of the `mate-strategy` schema/rule engine and strategy
composition layer.

The development shallowly embeds the Python sources:
  * `src/mate_strategy/schema/__init__.py` (class `Schema`): type
    descriptors, `example`, `validate_with_error`, `validate_cross`,
    `_apply_path`;
  * `src/mate_strategy/rules/predefined.py` (class `Interval`);
  * `src/mate_strategy/rules/factories/excerptish.py` (`excerptish_rule`);
  * `src/mate_strategy/strategy/__init__.py` (`BaseStrategy.__call__`,
    `Fallback.__call__`, `AutoRepair.__call__`, `AutoRepair._repair`).

Conventions of the embedding:
  * Python/JSON values are the inductive `Val`; Python `dict`s are
    insertion-ordered association lists `List (String × Val)`.
  * A Python function that may raise is modelled in `Except Unit`;
    `.error ()` stands for an uncaught exception.
  * Python's `isinstance` checks are modelled exactly, including the fact
    that `bool` is a subclass of `int` (`isinstance True int = true`).
  * The external generator (`ask_ai`) is an oracle indexed by a call
    counter (`Nat → Dict`); strategies thread the counter, so the number
    of generator invocations is observable as the counter increment.
    The rendered prompt text is not modelled: the oracle is universally
    quantified, so making it depend on the text adds no behaviour.
  * Loops in the source that early-return on the first failure are
    modelled by evaluating all iterations (everything is pure) and
    keeping the first non-success via `firstFailure`; the resulting value
    is identical to the early-returning loop's.
-/

namespace MateStrategy

/-- JSON-ish Python runtime values, as produced by the generator and
consumed by `Schema.validate_with_error`. Python floats are modelled as
rationals (only typing and ordering of concrete literals is used). -/
inductive Val where
  | null
  | bool (b : Bool)
  | int (n : Int)
  | float (q : ℚ)
  | str (s : String)
  | list (xs : List Val)
  | dict (kvs : List (String × Val))

/-- A Python `dict` with `String` keys: an insertion-ordered association
list (real dicts have unique keys; theorems assume it where it matters). -/
abbrev Dict := List (String × Val)

/-- Python `isinstance(v, str)`. -/
def isInstStr : Val → Bool
  | .str _ => true
  | _ => false

/-- Python `isinstance(v, bool)`. -/
def isInstBool : Val → Bool
  | .bool _ => true
  | _ => false

/-- Python `isinstance(v, int)`: `bool` is a subclass of `int`, so
booleans pass this check. -/
def isInstInt : Val → Bool
  | .int _ => true
  | .bool _ => true
  | _ => false

/-- Python `isinstance(v, (int, float))` (again including `bool`). -/
def isInstNum : Val → Bool
  | .int _ => true
  | .bool _ => true
  | .float _ => true
  | _ => false

/-- Python `isinstance(v, list)`. JSON replies contain no Python tuples,
so `Val` has a single sequence constructor. -/
def isInstList : Val → Bool
  | .list _ => true
  | _ => false

/-- Python `isinstance(v, dict)`. -/
def isInstDict : Val → Bool
  | .dict _ => true
  | _ => false

/-- Python `type(v).__name__`, used in the list/tuple shape error text. -/
def pyTypeName : Val → String
  | .null => "NoneType"
  | .bool _ => "bool"
  | .int _ => "int"
  | .float _ => "float"
  | .str _ => "str"
  | .list _ => "list"
  | .dict _ => "dict"

/-- `data[name]` / `name in data` lookup on a dict (first binding). -/
def dictGet : Dict → String → Option Val
  | [], _ => none
  | (k, v) :: rest, key => if k == key then some v else dictGet rest key

/-- `key in data` for a dict. -/
def dictHasKey (d : Dict) (key : String) : Bool :=
  d.any (fun p => p.1 == key)

/-- `obj[head] = value` on a dict: replaces the value in place if the key
exists (keeping position), else appends the new binding at the end. -/
def dictSet : Dict → String → Val → Dict
  | [], key, v => [(key, v)]
  | (k, w) :: rest, key, v =>
    if k == key then (k, v) :: rest else (k, w) :: dictSet rest key v

/-- A concrete `Rule` subclass (class `Rule` in `rules/__init__.py`):
`describe() -> str`, `example() -> value`, `validate(v) -> bool`, where
`validate` may raise (`.error ()`). -/
structure RuleSpec where
  describeStr : String
  exampleVal : Val
  validate : Val → Except Unit Bool

/-- One `@constraint(path, desc, fix=...)` entry of
`Schema._declared_constraints`: anchor path, description, predicate
(Python truthiness of the wrapped function) and the example fixup
(the default fixup is the identity / no-op). -/
structure Constraint where
  path : String
  desc : String
  pred : Dict → Bool
  fix : Dict → Dict

mutual
/-- The closed set of type annotations `Schema._validate_value` and
friends dispatch on: primitives, `Rule` subclasses, `List[T]`,
`Tuple[T, ...]`, `Optional[T]` (a 2-ary `Union` with `NoneType`, which
the source detects before general unions), `Union[...]`, and nested
`Schema` subclasses. -/
inductive Ty where
  | prim (k : PrimKind)
  | rule (r : RuleSpec)
  | listOf (elem : Ty)
  | tupleOf (elems : List Ty)
  | optionalOf (inner : Ty)
  | unionOf (alts : List Ty)
  | schemaRef (s : SchemaSpec)

/-- The four primitive annotations `str | int | float | bool`. -/
inductive PrimKind where
  | str | int | float | bool

/-- A `Schema` subclass: ordered fields (declaration order), the
declared cross-field constraints, and `__example_overrides__`
(dot-path → literal). -/
inductive SchemaSpec where
  | mk (fields : List (String × Ty)) (constraints : List Constraint)
       (overrides : List (String × Val))
end

/-- Declared fields of a schema, in declaration order. -/
def SchemaSpec.fields : SchemaSpec → List (String × Ty)
  | .mk f _ _ => f

/-- Declared cross-field constraints, in declaration order. -/
def SchemaSpec.constraints : SchemaSpec → List Constraint
  | .mk _ c _ => c

/-- The `__example_overrides__` table. -/
def SchemaSpec.overrides : SchemaSpec → List (String × Val)
  | .mk _ _ o => o

/-- `Schema._is_optional(t)`. -/
def isOptionalTy : Ty → Bool
  | .optionalOf _ => true
  | _ => false

/-- A validation failure: the `(short_msg, long_msg)` pair returned by
`Schema._validate_value` / `validate_with_error`. -/
abbrev VErr := String × String

/-- Outcome of a validation call: an uncaught exception, success, or an
error pair. -/
abbrev VOut := Except Unit (Option VErr)

/-- The `for i, v in enumerate(val)` loop of the list branch of
`_validate_value`: validate each element at key `key[i]`, early return on
the first failure. The element validator comes in as a function of the
indexed key and the element. -/
def validateListLoop (f : String → Val → VOut) (key : String) :
    Nat → List Val → VOut
  | _, [] => .ok none
  | i, x :: xs =>
    match f (key ++ "[" ++ toString i ++ "]") x with
    | .ok none => validateListLoop f key (i + 1) xs
    | r => r

/-- The `for k in data` loop opening `validate_with_error`: the error for
the first key of `data` that is not a declared field. -/
def unknownKeyError (flds : List (String × Ty)) : Dict → Option VErr
  | [] => none
  | (k, _) :: rest =>
    if flds.any (fun f => f.1 == k) then unknownKeyError flds rest
    else some ("\"" ++ k ++ "\" is not a valid field.",
               "\"" ++ k ++ "\" is not expected here.")

/-- `Schema.validate_cross`: first violated constraint, in declaration
order. -/
def validateCross : List Constraint → Dict → Option VErr
  | [], _ => none
  | c :: rest, data =>
    if c.pred data then validateCross rest data
    else some ("\"" ++ c.path ++ "\" violates constraint.",
               "\"" ++ c.path ++ "\" " ++ c.desc)

/-- `_prepend_outer_path` inside `Schema._validate_value` (nested-schema
branch): prefix the quoted path of a nested long error with the outer
path, unless it already starts with it. -/
def prependOuterPath (full msg : String) : String :=
  match msg.toList with
  | '"' :: rest =>
    match rest.findIdx? (fun c => c == '"') with
    | none => msg
    | some i =>
      let innerPath : List Char := rest.take i
      if (full ++ ".").toList.isPrefixOf innerPath then msg
      else "\"" ++ full ++ "." ++ String.mk innerPath ++ "\"" ++ String.mk (rest.drop (i + 1))
  | _ => msg

/-- The rewrite of the nested short error in the same branch:
`f'"{full}.{err_msg[1:]}' if err_msg.startswith('"') else err_msg`. -/
def prependErrPath (full errMsg : String) : String :=
  match errMsg.toList with
  | '"' :: rest => "\"" ++ full ++ "." ++ String.mk rest
  | _ => errMsg

/-- `PrimKind` discriminators (the `typ is str` tests of the primitive
branch; kept as functions so `validateValue` needs no `DecidableEq`). -/
def isPrimStr : PrimKind → Bool
  | .str => true
  | _ => false

/-- `typ is int`. -/
def isPrimInt : PrimKind → Bool
  | .int => true
  | _ => false

/-- `typ is float`. -/
def isPrimFloat : PrimKind → Bool
  | .float => true
  | _ => false

/-- `typ is bool`. -/
def isPrimBool : PrimKind → Bool
  | .bool => true
  | _ => false

mutual
/-- Port of `Schema._validate_value(key, val, typ, prefix)`: `.ok none`
iff valid, `.ok (some (err, expected))` on failure, `.error ()` when the
Python code would raise. The branch order follows the source: rule, list,
tuple, optional, union, nested schema, primitives, implicit success. -/
def validateValue (key : String) (v : Val) (t : Ty) (pre : String) : VOut :=
  let full := pre ++ key
  match t with
  | .rule r =>
    match r.validate v with
    | .error e => .error e
    | .ok true => .ok none
    | .ok false =>
      .ok (some ("\"" ++ full ++ "\" is invalid.",
                 "\"" ++ full ++ "\" " ++ r.describeStr))
  | .listOf elemTy =>
    match v with
    | .list xs =>
      validateListLoop (fun k x => validateValue k x elemTy pre) key 0 xs
    | _ =>
      .ok (some ("\"" ++ full ++ "\" must be a list, got " ++ pyTypeName v,
                 "\"" ++ full ++ "\" must be list"))
  | .tupleOf parts =>
    match v with
    | .list xs =>
      if xs.length ≠ parts.length then
        .ok (some ("\"" ++ full ++ "\" must have length " ++ toString parts.length
                     ++ ", got " ++ toString xs.length,
                   "\"" ++ full ++ "\" must be length-" ++ toString parts.length
                     ++ " tuple"))
      else validateTuple key pre 0 xs parts
    | _ =>
      .ok (some ("\"" ++ full ++ "\" must be a tuple, got " ++ pyTypeName v,
                 "\"" ++ full ++ "\" must be tuple"))
  | .optionalOf inner =>
    match v with
    | .null => .ok none
    | _ => validateValue key v inner pre
  | .unionOf alts =>
    match validateAlts key v alts pre with
    | .error e => .error e
    | .ok none => .ok none
    | .ok (some longs) =>
      .ok (some ("\"" ++ full ++ "\" matches none of the allowed alternatives.",
                 String.intercalate " or " longs))
  | .schemaRef s =>
    match v with
    | .dict kvs =>
      match validateWithError s kvs with
      | .error e => .error e
      | .ok none => .ok none
      | .ok (some (errMsg, expMsg)) =>
        .ok (some (prependErrPath full errMsg, prependOuterPath full expMsg))
    | _ =>
      .ok (some ("\"" ++ full ++ "\" must be an object",
                 "\"" ++ full ++ "\" must be an object"))
  | .prim k =>
    if isPrimStr k && !isInstStr v then
      .ok (some ("\"" ++ full ++ "\" must be string",
                 "\"" ++ full ++ "\" must be string"))
    else if isPrimInt k && !isInstInt v then
      .ok (some ("\"" ++ full ++ "\" must be integer",
                 "\"" ++ full ++ "\" must be integer"))
    else if isPrimFloat k && !isInstNum v then
      .ok (some ("\"" ++ full ++ "\" must be float",
                 "\"" ++ full ++ "\" must be float"))
    else if isPrimBool k && !isInstBool v then
      .ok (some ("\"" ++ full ++ "\" must be boolean",
                 "\"" ++ full ++ "\" must be boolean"))
    else .ok none

/-- The positional loop of the tuple branch of `_validate_value`
(lengths already checked equal). -/
def validateTuple (key pre : String) (i : Nat) :
    List Val → List Ty → VOut
  | x :: xs, t :: ts =>
    match validateValue (key ++ "[" ++ toString i ++ "]") x t pre with
    | .ok none => validateTuple key pre (i + 1) xs ts
    | r => r
  | _, _ => .ok none

/-- The `for alt in get_args(typ)` loop of the union branch: `.ok none`
if some alternative validates, otherwise the collected long messages of
all alternatives, in order. -/
def validateAlts (key : String) (v : Val) (alts : List Ty) (pre : String) :
    Except Unit (Option (List String)) :=
  match alts with
  | [] => .ok (some [])
  | t :: rest =>
    match validateValue key v t pre with
    | .error e => .error e
    | .ok none => .ok none
    | .ok (some (_, long)) =>
      match validateAlts key v rest pre with
      | .error e => .error e
      | .ok none => .ok none
      | .ok (some longs) => .ok (some (long :: longs))

/-- The per-field loop of `validate_with_error`: declaration order,
missing non-optional fields rejected, first failure returned. -/
def validateFields (data : Dict) : List (String × Ty) → VOut
  | [] => .ok none
  | (name, t) :: rest =>
    match dictGet data name with
    | none =>
      if isOptionalTy t then validateFields data rest
      else .ok (some ("\"" ++ name ++ "\" is missing.",
                      "\"" ++ name ++ "\" must be present."))
    | some v =>
      match validateValue name v t "" with
      | .error e => .error e
      | .ok (some err) => .ok (some err)
      | .ok none => validateFields data rest

/-- Port of `Schema.validate_with_error(data)`: unknown keys first, then
the declared fields in order, then the cross-field constraints.
`.ok none` models the `(True,)` success sentinel. -/
def validateWithError (s : SchemaSpec) (data : Dict) : VOut :=
  match s with
  | .mk flds cs _ =>
    match unknownKeyError flds data with
    | some e => .ok (some e)
    | none =>
      match validateFields data flds with
      | .error e => .error e
      | .ok (some err) => .ok (some err)
      | .ok none => .ok (validateCross cs data)
end

/-! ### Example synthesis (`Schema.example`, `Schema._example_for_type`) -/

/-- The fixup pass of `Schema.example`: every declared constraint's `fix`
is applied to the draft example, in declaration order. -/
def applyFixes (cs : List Constraint) (d : Dict) : Dict :=
  cs.foldl (fun d c => c.fix d) d

/-- Port of `Schema._apply_path(obj, path, value)` on the already-split
path. The source calls `obj.setdefault(head, {})` and recurses; when an
existing intermediate value is not a dict the source raises, a case no
schema in this development exercises (here the dict is returned
unchanged). -/
def applyPath (d : Dict) : List String → Val → Dict
  | [], _ => d
  | [h], v => dictSet d h v
  | h :: rest, v =>
    match dictGet d h with
    | some (.dict sub) => dictSet d h (.dict (applyPath sub rest v))
    | some _ => d
    | none => dictSet d h (.dict (applyPath [] rest v))

/-- `path.split(".")` on a character list: every dot separates, empty
segments kept — exactly Python `str.split` with an explicit separator. -/
def splitOnDot : List Char → List (List Char)
  | [] => [[]]
  | '.' :: rest => [] :: splitOnDot rest
  | c :: rest =>
    match splitOnDot rest with
    | [] => [[c]]
    | h :: t => (c :: h) :: t

/-- `path.split(".")`. -/
def splitPath (s : String) : List String :=
  (splitOnDot s.toList).map String.mk

/-- The override pass of `Schema.example`: each `__example_overrides__`
entry is written through its dot-separated path, after the fixups. -/
def applyOverrides (ov : List (String × Val)) (d : Dict) : Dict :=
  ov.foldl (fun d p => applyPath d (splitPath p.1) p.2) d

mutual
/-- Port of `Schema._example_for_type(typ)`: deterministic example value
per type (unions always pick alternative 0, optionals the non-null
branch). An empty union would raise `IndexError` in the source; it is
unreachable (`Union[]` is not expressible) and modelled as `null`. -/
def exampleForType : Ty → Val
  | .rule r => r.exampleVal
  | .listOf e => .list [exampleForType e]
  | .tupleOf ts => .list (exampleElems ts)
  | .optionalOf t => exampleForType t
  | .unionOf alts =>
    match alts with
    | [] => .null
    | t :: _ => exampleForType t
  | .schemaRef s => .dict (schemaExample s)
  | .prim .str => .str "example"
  | .prim .int => .int 42
  | .prim .float => .float ((314 : ℚ) / 100)
  | .prim .bool => .bool true

/-- Examples of a tuple's positions, in order. -/
def exampleElems : List Ty → List Val
  | [] => []
  | t :: rest => exampleForType t :: exampleElems rest

/-- The draft example dict `{n: example_for_type(t) for n, t in fields}`. -/
def exampleFields : List (String × Ty) → Dict
  | [] => []
  | (n, t) :: rest => (n, exampleForType t) :: exampleFields rest

/-- Port of `Schema.example()`: field examples, then every constraint's
`fix` in declaration order, then the explicit path overrides last. -/
def schemaExample : SchemaSpec → Dict
  | .mk flds cs ov => applyOverrides ov (applyFixes cs (exampleFields flds))
end

/-! ### The `Interval` rule (`rules/predefined.py`) with Python's
comparison semantics -/

/-- Numeric view used by Python's `<=` on mixed numbers: `bool` counts as
`0`/`1`, ints and floats compare as rationals. -/
def pyNum : Val → Option ℚ
  | .bool b => some (if b then 1 else 0)
  | .int n => some (n : ℚ)
  | .float q => some q
  | _ => none

/-- Python's `a <= b`: defined on number/number and string/string pairs,
a `TypeError` (`.error ()`) on everything else — there is no type guard
in `Interval.validate`. -/
def pyLE (a b : Val) : Except Unit Bool :=
  match pyNum a, pyNum b with
  | some x, some y => .ok (decide (x ≤ y))
  | _, _ =>
    match a, b with
    | .str x, .str y => .ok (decide (x < y) || x == y)
    | _, _ => .error ()

/-- Port of `Interval.validate`: the chained comparison `lo <= v <= hi`,
which evaluates `lo <= v` first and short-circuits on `False`. -/
def intervalValidate (lo hi : Int) (v : Val) : Except Unit Bool :=
  match pyLE (.int lo) v with
  | .error e => .error e
  | .ok false => .ok false
  | .ok true => pyLE v (.int hi)

/-- The `Interval[lo, hi]` rule: `describe`, `example` (`(lo+hi)//2`,
Python floor division) and `validate` from `rules/predefined.py`. -/
def intervalRule (lo hi : Int) : RuleSpec :=
  { describeStr := "number between " ++ toString lo ++ " and " ++ toString hi
    exampleVal := .int (Int.fdiv (lo + hi) 2)
    validate := intervalValidate lo hi }

/-! ### The fuzzy-excerpt rule factory
(`rules/factories/excerptish.py`) -/

/-- A word character in the sense of `re.sub(r"\W+", " ", ...)`
(ASCII scope, which covers every source text in this development). -/
def isWordChar (c : Char) : Bool := c.isAlphanum || c == '_'

/-- Collapses each run of non-word characters to a single space and
lowercases, character list form. -/
def excerptishCleanAux : List Char → Bool → List Char
  | [], _ => []
  | c :: rest, inRun =>
    if isWordChar c then c.toLower :: excerptishCleanAux rest false
    else if inRun then excerptishCleanAux rest true
    else ' ' :: excerptishCleanAux rest true

/-- The normalisation `re.sub(r"\W+", " ", source).lower()` applied to
the factory's source text (`src_clean` in `excerptish_rule`). -/
def excerptishClean (source : String) : String :=
  String.mk (excerptishCleanAux source.toList false)

/-- Port of `_ExcerptishRule.example()`: the body ignores the factory's
source entirely and returns a fixed two-element list of placeholder
strings. -/
def excerptishExample (_source : String) : Val :=
  .list [.str "... the grey fox jumped ...",
         .str "... ad minim veniam, quis nostrud  ..."]

/-! ### Strategy layer (`strategy/__init__.py`)

Strategies return `(reply, ok, err, exp)` and thread the generator's
call counter; the generator itself is an oracle `Nat → Dict` giving the
parsed reply of the n-th call (§6 of the docs: the collaborator always
hands back a parsed keyed object). -/

/-- The `GenerationAttempt` tuple `(reply, ok, shortError, longError)`. -/
abbrev SResult := Dict × Bool × Option String × Option String

/-- Port of `Prompt.validate(data)`: `(True, None, None)` on success,
`(False, err, exp)` on failure. -/
def promptValidate (s : SchemaSpec) (d : Dict) :
    Except Unit (Bool × Option String × Option String) :=
  match validateWithError s d with
  | .error e => .error e
  | .ok none => .ok (true, none, none)
  | .ok (some (err, exp)) => .ok (false, some err, some exp)

/-- The retry loop of `BaseStrategy.__call__` with `n` remaining retries:
call the generator, validate, return on the first valid reply, else keep
the last reply and error pair. -/
def runBaseLoop (ask : Nat → Dict) (s : SchemaSpec) :
    Nat → Nat → Except Unit (SResult × Nat)
  | n, k =>
    let reply := ask k
    match promptValidate s reply with
    | .error e => .error e
    | .ok (true, _, _) => .ok ((reply, true, none, none), k + 1)
    | .ok (false, err, exp) =>
      match n with
      | 0 => .ok ((reply, false, err, exp), k + 1)
      | n + 1 => runBaseLoop ask s n (k + 1)

/-- Port of `BaseStrategy.__call__` (prompt rendering and the backoff
sleep have no effect on the returned value): `retries + 1` attempts at
most, starting at call counter `k`. -/
def runBase (ask : Nat → Dict) (s : SchemaSpec) (retries k : Nat) :
    Except Unit (SResult × Nat) :=
  runBaseLoop ask s retries k

/-- A strategy seen by a combinator: call-time parameters, a starting
call counter, and the resulting attempt plus the next counter value. -/
abbrev Strat (P : Type) := P → Nat → Except Unit (SResult × Nat)

/-- Port of `Fallback.__call__`: run `inner` with the call-time
parameters; return its result unchanged on success, else run `fallback`
with the same parameters (and the counter where `inner` stopped). -/
def fallbackCall {P : Type} (inner fb : Strat P) (p : P) (k : Nat) :
    Except Unit (SResult × Nat) :=
  match inner p k with
  | .error e => .error e
  | .ok ((reply, ok, err, exp), k') =>
    if ok then .ok ((reply, ok, err, exp), k') else fb p k'

/-- Port of `AutoRepair._repair(repl, ..., depth=d)`: at depth `0` report
failure; otherwise re-validate the working reply, run the one-shot
repair strategy (a `BaseStrategy` on the same schema with
`repair_retries` retries and the inner strategy's generator), patch the
working reply (`repl.clear(); repl.update(new_reply)`) on a validating
repair, and otherwise recurse with `depth - 1` — the same counter the
outer call decrements. Returns `(succeeded, working reply, counter)`. -/
def repairLoop (ask : Nat → Dict) (s : SchemaSpec) (rr : Nat) (repl : Dict) :
    Nat → Nat → Except Unit (Bool × Dict × Nat)
  | 0, k => .ok (false, repl, k)
  | d + 1, k =>
    match promptValidate s repl with
    | .error e => .error e
    | .ok (true, _, _) => .ok (true, repl, k)
    | .ok (false, _, _) =>
      match runBase ask s rr k with
      | .error e => .error e
      | .ok ((newReply, ok2, _, _), k') =>
        if ok2 then .ok (true, newReply, k')
        else repairLoop ask s rr repl d k'

/-- Port of `AutoRepair.__call__` (without call-time overrides): run the
inner strategy once; on success or `depth == 0` return its result as is;
otherwise repair a deep copy of the reply and return either the repaired
copy with success or the original reply with the original error pair.
`ask` is `self.inner.ask_ai`, the generator the repair strategies use. -/
def autoRepairCall (inner : Nat → Except Unit (SResult × Nat))
    (ask : Nat → Dict) (s : SchemaSpec) (rr depth k : Nat) :
    Except Unit (SResult × Nat) :=
  match inner k with
  | .error e => .error e
  | .ok ((reply, ok, err, exp), k₁) =>
    if ok || depth == 0 then .ok ((reply, ok, err, exp), k₁)
    else
      match repairLoop ask s rr reply depth k₁ with
      | .error e => .error e
      | .ok (true, fixed, k₂) => .ok ((fixed, true, none, none), k₂)
      | .ok (false, _, k₂) => .ok ((reply, false, err, exp), k₂)

/-- The state machine as worded in the docs (§4.6), for comparison with
the implementation: `Attempt(depth)` runs the inner strategy and, when
`Repair(depth)`'s one-shot repair fails to validate, transitions to
`Attempt(depth - 1)` — re-running the inner strategy with the depth
budget decremented. -/
def autoRepairSpecAttempt (inner : Nat → Except Unit (SResult × Nat))
    (ask : Nat → Dict) (s : SchemaSpec) (rr : Nat) :
    Nat → Nat → Except Unit (SResult × Nat)
  | depth, k =>
    match inner k with
    | .error e => .error e
    | .ok ((reply, ok, err, exp), k₁) =>
      if ok then .ok ((reply, ok, err, exp), k₁)
      else
        match depth with
        | 0 => .ok ((reply, false, err, exp), k₁)
        | d + 1 =>
          match runBase ask s rr k₁ with
          | .error e => .error e
          | .ok ((newReply, ok2, _, _), k₂) =>
            if ok2 then .ok ((newReply, true, none, none), k₂)
            else autoRepairSpecAttempt inner ask s rr d k₂

/-! ### Well-behavedness of synthesized examples

`exampleOk` marks the types whose synthesized example is guaranteed to
validate against the type itself: every rule's own example must satisfy
the rule, and nested schemas must be free of cross-field constraints and
overrides (which can invalidate the draft example, see the
counterexample for C1) and have distinct field names. -/

/-- Field names are pairwise distinct (dataclasses guarantee this for
real schemas). -/
def nodupKeys : List (String × Ty) → Bool
  | [] => true
  | (n, _) :: rest => !(rest.any (fun p => p.1 == n)) && nodupKeys rest

mutual
/-- The example of `t` is guaranteed to validate against `t`. -/
def exampleOk : Ty → Bool
  | .prim _ => true
  | .rule r =>
    match r.validate r.exampleVal with
    | .ok true => true
    | _ => false
  | .listOf e => exampleOk e
  | .tupleOf ts => exampleOkElems ts
  | .optionalOf t => exampleOk t
  | .unionOf alts =>
    match alts with
    | [] => false
    | t :: _ => exampleOk t
  | .schemaRef s => exampleOkSchema s

/-- `exampleOk` over a tuple's positions. -/
def exampleOkElems : List Ty → Bool
  | [] => true
  | t :: rest => exampleOk t && exampleOkElems rest

/-- `exampleOk` over a field list. -/
def exampleOkFields : List (String × Ty) → Bool
  | [] => true
  | (_, t) :: rest => exampleOk t && exampleOkFields rest

/-- A schema whose synthesized example is guaranteed to self-validate:
distinct field names, well-behaved field examples, and no constraints or
overrides rewriting the draft. -/
def exampleOkSchema : SchemaSpec → Bool
  | .mk flds cs ov =>
    cs.isEmpty && ov.isEmpty && nodupKeys flds && exampleOkFields flds
end

/-! ### Concrete fixtures used by witnesses and counterexamples -/

/-- The `RandomNumbers` schema of the `AutoRepair` doctest:
one field `x : Interval[0, 10]`. -/
def rnSchema : SchemaSpec := .mk [("x", .rule (intervalRule 0 10))] [] []

/-- A generator oracle whose first two replies are invalid for
`rnSchema` (`x = 50`) and whose later replies are valid (`x = 10`). -/
def askA : Nat → Dict := fun k =>
  if k ≤ 1 then [("x", .int 50)] else [("x", .int 10)]

/-- The inner strategy of the `AutoRepair` scenarios: a plain
`BaseStrategy` over `askA` with `retries = 0`. -/
def innerA : Nat → Except Unit (SResult × Nat) := fun k => runBase askA rnSchema 0 k

/-- The cross-field predicate of the parity doctest: `y` must be odd
when `x` is even and vice versa. -/
def parityPred : Dict → Bool := fun d =>
  match dictGet d "x", dictGet d "y" with
  | some (.int x), some (.int y) =>
    if x % 2 == 0 then y % 2 ≠ 0 else y % 2 == 0
  | _, _ => false

/-- The parity schema declared with the default no-op fixup — the
`@constraint` doctest without `fix=`. -/
def paritySchema : SchemaSpec :=
  .mk [("x", .prim .int), ("y", .prim .int)]
     [⟨"y", "must be odd if x is even and vice versa", parityPred, id⟩] []

/-- A constraint-free schema exercising every descriptor shape, used to
witness the amended C1. -/
def richSchema : SchemaSpec :=
  .mk [("a", .prim .int), ("b", .prim .str), ("c", .prim .float),
       ("d", .prim .bool), ("e", .listOf (.prim .int)),
       ("f", .tupleOf [.prim .int, .prim .str]),
       ("g", .unionOf [.prim .int, .prim .str]),
       ("h", .optionalOf (.prim .int)),
       ("i", .rule (intervalRule 20 100)),
       ("j", .schemaRef (.mk [("x", .prim .int)] [] []))] [] []

/-- The source text of the fuzzy-excerpt scenario in the docs. -/
def c9src : String := "the grey fox jumped over the lazy dog"

/-- A declared field passes the per-field loop of `validate_with_error`
on `data`: either absent and optional, or present and valid. -/
def FieldPasses (data : Dict) (f : String × Ty) : Prop :=
  (dictGet data f.1 = none ∧ isOptionalTy f.2 = true) ∨
  (∃ v, dictGet data f.1 = some v ∧ validateValue f.1 v f.2 "" = .ok none)

/-- A declared field is the source of error pair `e` on `data`: absent
and non-optional (the missing-field message), or present and invalid
with `e`. -/
def FieldFailsWith (data : Dict) (f : String × Ty) (e : VErr) : Prop :=
  (dictGet data f.1 = none ∧ isOptionalTy f.2 = false ∧
     e = ("\"" ++ f.1 ++ "\" is missing.", "\"" ++ f.1 ++ "\" must be present.")) ∨
  (∃ v, dictGet data f.1 = some v ∧ validateValue f.1 v f.2 "" = .ok (some e))

/-- A generator that always returns the invalid reply `{x: 50}`. -/
def askBad : Nat → Dict := fun _ => [("x", .int 50)]

/-- A generator that always returns the valid reply `{x: 5}`. -/
def askGood : Nat → Dict := fun _ => [("x", .int 5)]

/-- `BaseStrategy` over `askBad` as a parameterized strategy. -/
def sBad : Strat Unit := fun _ k => runBase askBad rnSchema 0 k

/-- `BaseStrategy` over `askGood` as a parameterized strategy. -/
def sGood : Strat Unit := fun _ k => runBase askGood rnSchema 0 k

/-- `BaseStrategy` over `askBad` as an `AutoRepair` inner strategy. -/
def innerBad : Nat → Except Unit (SResult × Nat) := fun k => runBase askBad rnSchema 0 k

/-- A strategy that agrees with `innerA` on its first call only and
afterwards returns a valid reply immediately. -/
def innerAlt : Nat → Except Unit (SResult × Nat) := fun k =>
  if k == 0 then innerA 0 else .ok (([("x", .int 0)], true, none, none), k + 1)

/-! ## Helper lemmas -/

theorem applyFixes_nil (d : Dict) : applyFixes [] d = d := rfl

theorem applyOverrides_nil (d : Dict) : applyOverrides [] d = d := rfl

/-- Every key of the draft example dict is a declared field name. -/
theorem exampleFields_keys {flds : List (String × Ty)} {p : String × Val}
    (hp : p ∈ exampleFields flds) :
    flds.any (fun f => f.1 == p.1) = true := by
  induction flds with
  | nil => simp [exampleFields] at hp
  | cons hd rest ih =>
    obtain ⟨n, t⟩ := hd
    rw [exampleFields, List.mem_cons] at hp
    rcases hp with h | h
    · subst h; simp
    · simp [ih h]

/-- No unknown-key error when every key of `data` is declared. -/
theorem unknownKeyError_eq_none {flds : List (String × Ty)} {data : Dict}
    (h : ∀ p ∈ data, flds.any (fun f => f.1 == p.1) = true) :
    unknownKeyError flds data = none := by
  induction data with
  | nil => rfl
  | cons hd rest ih =>
    obtain ⟨k, v⟩ := hd
    have hk := h (k, v) (by simp)
    simp only at hk
    rw [unknownKeyError, if_pos hk]
    exact ih (fun p hp => h p (List.mem_cons_of_mem _ hp))

/-- Looking a declared field up in the draft example dict returns the
field's example (field names distinct). -/
theorem dictGet_exampleFields {flds : List (String × Ty)} {name : String} {t : Ty}
    (hnd : nodupKeys flds = true) (hmem : (name, t) ∈ flds) :
    dictGet (exampleFields flds) name = some (exampleForType t) := by
  induction flds with
  | nil => simp at hmem
  | cons hd rest ih =>
    obtain ⟨n, t0⟩ := hd
    rw [nodupKeys, Bool.and_eq_true] at hnd
    obtain ⟨hnot, hnd'⟩ := hnd
    rw [List.mem_cons] at hmem
    rcases hmem with h | h
    · rw [Prod.mk.injEq] at h
      obtain ⟨h1, h2⟩ := h
      subst h1 h2
      simp [exampleFields, dictGet]
    · by_cases hne : n = name
      · exfalso
        subst hne
        simp only [Bool.not_eq_true'] at hnot
        rw [List.any_eq_false] at hnot
        exact absurd (by simp) (hnot _ h)
      · rw [exampleFields, dictGet, if_neg (by simpa using hne)]
        exact ih hnd' h

/-- Length of the tuple-example list. -/
theorem exampleElems_length (ts : List Ty) :
    (exampleElems ts).length = ts.length := by
  induction ts with
  | nil => rfl
  | cons t rest ih => simp [exampleElems, ih]

mutual
/-- A well-behaved type's synthesized example validates against the type,
at any key and path prefix. -/
theorem exampleForType_valid (t : Ty) (h : exampleOk t = true) (key pre : String) :
    validateValue key (exampleForType t) t pre = .ok none := by
  cases t with
  | prim k => cases k <;> rfl
  | rule r =>
    cases hv : r.validate r.exampleVal with
    | error e => rw [exampleOk, hv] at h; cases h
    | ok b =>
      cases b with
      | false => rw [exampleOk, hv] at h; cases h
      | true => simp [exampleForType, validateValue, hv]
  | listOf e =>
    rw [exampleOk] at h
    have ih := exampleForType_valid e h (key ++ "[" ++ toString 0 ++ "]") pre
    simp [exampleForType, validateValue, validateListLoop, ih]
  | tupleOf ts =>
    rw [exampleOk] at h
    have ih := exampleElems_valid ts h key pre 0
    simp [exampleForType, validateValue, exampleElems_length, ih]
  | optionalOf t =>
    rw [exampleOk] at h
    have ih := exampleForType_valid t h key pre
    cases hv : exampleForType t with
    | null => simp [exampleForType, validateValue, hv]
    | _ => rw [hv] at ih; simp_all [exampleForType, validateValue]
  | unionOf alts =>
    cases alts with
    | nil => rw [exampleOk] at h; cases h
    | cons t rest =>
      rw [exampleOk] at h
      have ih := exampleForType_valid t h key pre
      simp [exampleForType, validateValue, validateAlts, ih]
  | schemaRef s =>
    rw [exampleOk] at h
    have ih := schemaExample_valid s h
    simp [exampleForType, validateValue, ih]

/-- The positional tuple loop accepts the tuple's own examples. -/
theorem exampleElems_valid (ts : List Ty) (h : exampleOkElems ts = true)
    (key pre : String) (i : Nat) :
    validateTuple key pre i (exampleElems ts) ts = .ok none := by
  cases ts with
  | nil => rfl
  | cons t rest =>
    rw [exampleOkElems, Bool.and_eq_true] at h
    have ih1 := exampleForType_valid t h.1 (key ++ "[" ++ toString i ++ "]") pre
    have ih2 := exampleElems_valid rest h.2 key pre (i + 1)
    simp [exampleElems, validateTuple, ih1, ih2]

/-- The per-field loop accepts data that holds each declared field's
example. -/
theorem exampleFields_valid (flds : List (String × Ty)) (data : Dict)
    (h : exampleOkFields flds = true)
    (hget : ∀ n t, (n, t) ∈ flds → dictGet data n = some (exampleForType t)) :
    validateFields data flds = .ok none := by
  cases flds with
  | nil => rfl
  | cons hd rest =>
    obtain ⟨n, t⟩ := hd
    rw [exampleOkFields, Bool.and_eq_true] at h
    have hg := hget n t (List.mem_cons_self _ _)
    have ih1 := exampleForType_valid t h.1 n ""
    have ih2 := exampleFields_valid rest data h.2
      (fun n' t' hm => hget n' t' (List.mem_cons_of_mem _ hm))
    simp [validateFields, hg, ih1, ih2]

/-- A constraint- and override-free schema with well-behaved fields
self-validates its synthesized example. -/
theorem schemaExample_valid (s : SchemaSpec) (h : exampleOkSchema s = true) :
    validateWithError s (schemaExample s) = .ok none := by
  cases s with
  | mk flds cs ov =>
    rw [exampleOkSchema, Bool.and_eq_true, Bool.and_eq_true, Bool.and_eq_true] at h
    obtain ⟨⟨⟨hcs, hov⟩, hnd⟩, hok⟩ := h
    rw [List.isEmpty_iff] at hcs hov
    subst hcs hov
    have hex : schemaExample (.mk flds [] []) = exampleFields flds := rfl
    rw [validateWithError, hex]
    rw [unknownKeyError_eq_none (fun p hp => exampleFields_keys hp)]
    rw [exampleFields_valid flds (exampleFields flds) hok
      (fun n t hm => dictGet_exampleFields hnd hm)]
    rfl
end

/-- The generator call counter after a `BaseStrategy` run advances by at
most `n + 1`. -/
theorem runBaseLoop_cursor_le (ask : Nat → Dict) (s : SchemaSpec) :
    ∀ n k res k', runBaseLoop ask s n k = .ok (res, k') → k' ≤ k + n + 1 := by
  intro n
  induction n with
  | zero =>
    intro k res k' h
    rw [runBaseLoop] at h
    cases hv : promptValidate s (ask k) with
    | error e => rw [hv] at h; cases h
    | ok t =>
      obtain ⟨ok, err, exp⟩ := t
      cases ok <;> rw [hv] at h <;> simp_all
  | succ n ih =>
    intro k res k' h
    rw [runBaseLoop] at h
    cases hv : promptValidate s (ask k) with
    | error e => rw [hv] at h; cases h
    | ok t =>
      obtain ⟨ok, err, exp⟩ := t
      cases ok
      · rw [hv] at h
        have := ih (k + 1) res k' h
        omega
      · rw [hv] at h
        simp_all
        omega

/-- A failed repair pass leaves the working reply untouched: repairs
that do not fully validate are discarded, never partially merged. -/
theorem repairLoop_fail_eq (ask : Nat → Dict) (s : SchemaSpec) (rr : Nat) :
    ∀ d repl k r' k₂,
      repairLoop ask s rr repl d k = .ok (false, r', k₂) → r' = repl := by
  intro d
  induction d with
  | zero =>
    intro repl k r' k₂ h
    rw [repairLoop] at h
    simp_all
  | succ d ih =>
    intro repl k r' k₂ h
    rw [repairLoop] at h
    cases hv : promptValidate s repl with
    | error e => rw [hv] at h; cases h
    | ok t =>
      obtain ⟨ok, err, exp⟩ := t
      cases ok
      · rw [hv] at h
        cases hr : runBase ask s rr k with
        | error e => rw [hr] at h; cases h
        | ok res =>
          obtain ⟨⟨nr, ok2, xe1, xe2⟩, k'⟩ := res
          rw [hr] at h
          cases ok2
          · exact ih repl k' r' k₂ h
          · simp at h
      · rw [hv] at h; simp at h

/-! ## Claims -/

/-- C2 counterexample: validating the boolean `True` against the integer
primitive succeeds (`isinstance(True, int)` holds in Python, and
`_validate_value` has no boolean guard before the integer check), so no
error pair exists — refuting the claim that it must fail. -/
theorem c2_counterexample :
    ¬ ∃ e : VErr, validateValue "x" (.bool true) (.prim .int) "" = .ok (some e) := by
  rintro ⟨e, h⟩
  rw [show validateValue "x" (.bool true) (.prim .int) "" = .ok none from rfl] at h
  simp at h

/-- C2 (amended): a boolean validates against the boolean primitive, but
it also validates against the integer primitive (Python's
`isinstance(val, int)` accepts booleans and the code adds no guard);
a non-boolean integer still fails the boolean primitive check. -/
theorem c2_bool_int_primitives (key pre : String) :
    (∀ b : Bool, validateValue key (.bool b) (.prim .int) pre = .ok none) ∧
    (∀ b : Bool, validateValue key (.bool b) (.prim .bool) pre = .ok none) ∧
    (∀ n : Int, validateValue key (.int n) (.prim .int) pre = .ok none) ∧
    (∀ n : Int, validateValue key (.int n) (.prim .bool) pre =
       .ok (some ("\"" ++ (pre ++ key) ++ "\" must be boolean",
                  "\"" ++ (pre ++ key) ++ "\" must be boolean"))) :=
  ⟨fun b => by cases b <;> rfl, fun b => by cases b <;> rfl,
   fun _ => rfl, fun _ => rfl⟩

/-- C9 counterexample: the fuzzy-excerpt rule's `example()` is not a
prefix slice of the normalized source — it is not even a string, but a
fixed two-element list. -/
theorem c9_counterexample :
    ¬ ∃ n : Nat, excerptishExample c9src =
        .str (String.mk ((excerptishClean c9src).toList.take n)) := by
  rintro ⟨n, h⟩
  rw [show excerptishExample c9src =
      .list [.str "... the grey fox jumped ...",
             .str "... ad minim veniam, quis nostrud  ..."] from rfl] at h
  cases h

/-- C9 (amended): `_ExcerptishRule.example()` returns a fixed, hardcoded
two-element list of placeholder excerpt strings, independent of the
source text handed to the factory (deterministic, but not a slice of the
normalized source). -/
theorem c9_example_fixed_list (source : String) :
    excerptishExample source =
      .list [.str "... the grey fox jumped ...",
             .str "... ad minim veniam, quis nostrud  ..."] := rfl

/-- C10: validation is not total — `Interval.validate` compares
`lo <= v <= hi` without a type guard, so `validate_with_error` on a
string or `None` at an `Interval` field raises (`.error ()`) instead of
returning an error triple, while an in-range integer yields success
normally. -/
theorem c10_interval_validation_raises :
    validateWithError rnSchema [("x", .str "foo")] = .error () ∧
    validateWithError rnSchema [("x", .null)] = .error () ∧
    validateWithError rnSchema [("x", .int 5)] = .ok none :=
  ⟨rfl, rfl, rfl⟩

/-- C8: `Fallback.__call__` runs the inner strategy first and to
completion; on success the inner result tuple is returned unchanged and
the fallback strategy plays no role at all, and on failure the fallback
strategy runs with the same call-time parameters (from the counter where
the inner strategy stopped) and its result is returned as is. -/
theorem c8_fallback_composition {P : Type} (inner : Strat P) (p : P) (k : Nat) :
    (∀ reply err exp k', inner p k = .ok ((reply, true, err, exp), k') →
       ∀ fb : Strat P, fallbackCall inner fb p k = inner p k) ∧
    (∀ reply err exp k', inner p k = .ok ((reply, false, err, exp), k') →
       ∀ fb : Strat P, fallbackCall inner fb p k = fb p k') := by
  constructor
  · intro reply err exp k' h fb
    rw [fallbackCall, h]
    rfl
  · intro reply err exp k' h fb
    rw [fallbackCall, h]
    rfl

/-- C8 witness: a failing inner strategy hands over to the fallback
(which then returns the valid reply), and a succeeding inner strategy is
returned unchanged with the fallback never consulted. -/
theorem c8_fallback_witness :
    fallbackCall sBad sGood () 0 = sGood () 1 ∧
    fallbackCall sGood sBad () 0 = sGood () 0 :=
  ⟨(c8_fallback_composition sBad () 0).2 [("x", .int 50)]
      (some "\"x\" is invalid.") (some "\"x\" number between 0 and 10") 1 rfl sGood,
   (c8_fallback_composition sGood () 0).1 [("x", .int 5)] none none 1 rfl sBad⟩

/-- C3: `AutoRepair` failure semantics — with an invalid inner reply and
`depth = 0` the inner reply and its error pair are returned as is; and
whenever the repair budget is exhausted without a validating repair, the
returned value is the original inner reply with the original error pair
(the failed repair attempts never touch the working copy: the loop hands
back exactly the reply it was given). -/
theorem c3_autorepair_failure_semantics
    (inner : Nat → Except Unit (SResult × Nat)) (ask : Nat → Dict)
    (s : SchemaSpec) (rr k d : Nat) (reply : Dict)
    (e1 e2 : Option String) (k₁ : Nat)
    (hinner : inner k = .ok ((reply, false, e1, e2), k₁)) :
    autoRepairCall inner ask s rr 0 k = .ok ((reply, false, e1, e2), k₁) ∧
    (∀ r' k₂, repairLoop ask s rr reply d k₁ = .ok (false, r', k₂) →
       r' = reply ∧
       autoRepairCall inner ask s rr d k = .ok ((reply, false, e1, e2), k₂)) := by
  constructor
  · rw [autoRepairCall, hinner]
    rfl
  · intro r' k₂ hrep
    refine ⟨repairLoop_fail_eq ask s rr d reply k₁ r' k₂ hrep, ?_⟩
    rw [autoRepairCall, hinner]
    cases d with
    | zero =>
      rw [repairLoop] at hrep
      simp at hrep
      simp [hrep]
    | succ d =>
      simp only [Bool.false_eq_true, false_or, if_neg]
      rw [hrep]
      simp

/-- C3 witness: with a generator that always returns `{x: 50}` against
`Interval[0, 10]` and `depth = 1`, the repair round fails and the call
returns the original invalid reply with its original error pair. -/
theorem c3_autorepair_failure_witness :
    autoRepairCall innerBad askBad rnSchema 0 1 0 =
      .ok (([("x", .int 50)], false, some "\"x\" is invalid.",
            some "\"x\" number between 0 and 10"), 2) :=
  ((c3_autorepair_failure_semantics innerBad askBad rnSchema 0 0 1
      [("x", .int 50)] (some "\"x\" is invalid.")
      (some "\"x\" number between 0 and 10") 1 rfl).2
    [("x", .int 50)] 2 rfl).2

/-- C4 counterexample: the implementation does not transition to
`Attempt(depth - 1)` after a failed repair round. With a generator whose
third reply is valid, the spec-worded machine (which would re-run the
inner strategy) succeeds with that reply, while `AutoRepair.__call__`
never re-invokes the inner strategy and fails — the two disagree at this
concrete input. -/
theorem c4_counterexample :
    autoRepairCall innerA askA rnSchema 0 1 0 ≠
      autoRepairSpecAttempt innerA askA rnSchema 0 1 0 := by
  rw [show autoRepairCall innerA askA rnSchema 0 1 0 =
      .ok (([("x", .int 50)], false, some "\"x\" is invalid.",
            some "\"x\" number between 0 and 10"), 2) from rfl]
  rw [show autoRepairSpecAttempt innerA askA rnSchema 0 1 0 =
      .ok (([("x", .int 10)], true, none, none), 3) from rfl]
  simp

/-- C4 (amended): repair rounds consume the single shared depth budget,
but a failed round transitions to another repair round with `depth - 1`
on the same working reply — the inner strategy is not re-invoked (the
result depends only on the inner strategy's one initial call), and at
most `d` repair rounds run, each invoking the one-shot repair strategy
at most `rr + 1` times, before terminal failure. -/
theorem c4_repair_budget (ask : Nat → Dict) (s : SchemaSpec) (rr : Nat) :
    (∀ (inner₁ inner₂ : Nat → Except Unit (SResult × Nat)) (d k : Nat),
       inner₁ k = inner₂ k →
       autoRepairCall inner₁ ask s rr d k = autoRepairCall inner₂ ask s rr d k) ∧
    (∀ repl d k e1 e2 nr xe1 xe2 k',
       promptValidate s repl = .ok (false, e1, e2) →
       runBase ask s rr k = .ok ((nr, false, xe1, xe2), k') →
       repairLoop ask s rr repl (d + 1) k = repairLoop ask s rr repl d k') ∧
    (∀ repl d k b r' k₂, repairLoop ask s rr repl d k = .ok (b, r', k₂) →
       k₂ ≤ k + d * (rr + 1)) := by
  refine ⟨?_, ?_, ?_⟩
  · intro inner₁ inner₂ d k h
    rw [autoRepairCall, autoRepairCall, h]
  · intro repl d k e1 e2 nr xe1 xe2 k' hval hrun
    rw [repairLoop, hval, hrun]
    simp
  · intro repl d
    induction d with
    | zero =>
      intro k b r' k₂ h
      rw [repairLoop] at h
      simp at h
      omega
    | succ d ih =>
      intro k b r' k₂ h
      rw [repairLoop] at h
      cases hv : promptValidate s repl with
      | error e => rw [hv] at h; cases h
      | ok t =>
        obtain ⟨ok, err, exp⟩ := t
        cases ok
        · rw [hv] at h
          cases hr : runBase ask s rr k with
          | error e => rw [hr] at h; cases h
          | ok res =>
            obtain ⟨⟨nr, ok2, xe1, xe2⟩, k'⟩ := res
            rw [hr] at h
            have hk' : k' ≤ k + rr + 1 :=
              runBaseLoop_cursor_le ask s rr k _ k' hr
            cases ok2
            · have := ih k' b r' k₂ h
              rw [Nat.succ_mul]
              omega
            · simp at h
              rw [Nat.succ_mul]
              omega
        · rw [hv] at h
          simp at h
          omega

/-- C4 witness: at concrete inputs — the outcome is unchanged when the
inner strategy is replaced beyond its first call; a concrete failed
round steps to depth 1 at the advanced counter; and a depth-2 run with
one-shot repairs stays within the `d * (rr + 1)` generator budget. -/
theorem c4_repair_budget_witness :
    autoRepairCall innerA askA rnSchema 0 1 0 =
      autoRepairCall innerAlt askA rnSchema 0 1 0 ∧
    repairLoop askA rnSchema 0 [("x", .int 50)] 2 1 =
      repairLoop askA rnSchema 0 [("x", .int 50)] 1 2 ∧
    (3 : Nat) ≤ 1 + 2 * (0 + 1) :=
  ⟨(c4_repair_budget askA rnSchema 0).1 innerA innerAlt 1 0 rfl,
   (c4_repair_budget askA rnSchema 0).2.1 [("x", .int 50)] 1 1
     (some "\"x\" is invalid.") (some "\"x\" number between 0 and 10")
     [("x", .int 50)] (some "\"x\" is invalid.")
     (some "\"x\" number between 0 and 10") 2 rfl rfl,
   (c4_repair_budget askA rnSchema 0).2.2 [("x", .int 50)] 2 1 true
     [("x", .int 10)] 3 rfl⟩

/-- When no attempt raises, the retry loop returns a result, consuming
between `1` and `n + 1` generator calls. -/
theorem runBaseLoop_ok_bounds (ask : Nat → Dict) (s : SchemaSpec) :
    ∀ n k, (∀ i, i ≤ n → promptValidate s (ask (k + i)) ≠ .error ()) →
      ∃ res k', runBaseLoop ask s n k = .ok (res, k') ∧
        k + 1 ≤ k' ∧ k' ≤ k + n + 1 := by
  intro n
  induction n with
  | zero =>
    intro k h
    have h0 := h 0 (Nat.le_refl 0)
    rw [Nat.add_zero] at h0
    rw [runBaseLoop]
    cases hv : promptValidate s (ask k) with
    | error e => exact absurd hv (by simpa using h0)
    | ok t =>
      obtain ⟨ok, err, exp⟩ := t
      cases ok <;> exact ⟨_, k + 1, rfl, Nat.le_refl _, by omega⟩
  | succ n ih =>
    intro k h
    rw [runBaseLoop]
    cases hv : promptValidate s (ask k) with
    | error e =>
      have h0 := h 0 (Nat.zero_le _)
      rw [Nat.add_zero] at h0
      exact absurd hv (by simpa using h0)
    | ok t =>
      obtain ⟨ok, err, exp⟩ := t
      cases ok
      · obtain ⟨res, k', hrun, hlo, hhi⟩ := ih (k + 1) (fun i hi => by
          have := h (i + 1) (by omega)
          rwa [show k + (i + 1) = k + 1 + i by omega] at this)
        exact ⟨res, k', hrun, by omega, by omega⟩
      · exact ⟨_, k + 1, rfl, Nat.le_refl _, by omega⟩

/-- The retry loop returns `(reply, true, none, none)` for the first
validating reply, after the failed earlier attempts. -/
theorem runBaseLoop_first_valid (ask : Nat → Dict) (s : SchemaSpec) :
    ∀ n k i, i ≤ n →
      (∀ j, j < i → ∃ e x, promptValidate s (ask (k + j)) = .ok (false, e, x)) →
      (∃ e x, promptValidate s (ask (k + i)) = .ok (true, e, x)) →
      runBaseLoop ask s n k = .ok ((ask (k + i), true, none, none), k + i + 1) := by
  intro n
  induction n with
  | zero =>
    intro k i hi hfail hvalid
    interval_cases i
    obtain ⟨e, x, hv⟩ := hvalid
    rw [Nat.add_zero] at hv
    rw [runBaseLoop, hv]
    simp
  | succ n ih =>
    intro k i hi hfail hvalid
    cases i with
    | zero =>
      obtain ⟨e, x, hv⟩ := hvalid
      rw [Nat.add_zero] at hv
      rw [runBaseLoop, hv]
      simp
    | succ i =>
      obtain ⟨e, x, h0⟩ := hfail 0 (Nat.succ_pos _)
      rw [Nat.add_zero] at h0
      have hrec := ih (k + 1) i (by omega)
        (fun j hj => by
          obtain ⟨e', x', hj'⟩ := hfail (j + 1) (by omega)
          exact ⟨e', x', by rwa [show k + (j + 1) = k + 1 + j by omega] at hj'⟩)
        (by
          obtain ⟨e', x', hv⟩ := hvalid
          exact ⟨e', x', by rwa [show k + (i + 1) = k + 1 + i by omega] at hv⟩)
      rw [show k + (i + 1) = k + 1 + i by omega]
      rw [runBaseLoop, h0]
      simpa using hrec

/-- When every attempt fails to validate, the loop returns the last
reply together with the last error pair. -/
theorem runBaseLoop_exhausted (ask : Nat → Dict) (s : SchemaSpec) :
    ∀ n k e x,
      (∀ i, i < n → ∃ e' x', promptValidate s (ask (k + i)) = .ok (false, e', x')) →
      promptValidate s (ask (k + n)) = .ok (false, e, x) →
      runBaseLoop ask s n k = .ok ((ask (k + n), false, e, x), k + n + 1) := by
  intro n
  induction n with
  | zero =>
    intro k e x _ hlast
    rw [Nat.add_zero] at hlast
    rw [runBaseLoop, hlast]
    simp
  | succ n ih =>
    intro k e x hfail hlast
    obtain ⟨e', x', h0⟩ := hfail 0 (Nat.succ_pos _)
    rw [Nat.add_zero] at h0
    have hrec := ih (k + 1) e x
      (fun i hi => by
        obtain ⟨e'', x'', hi'⟩ := hfail (i + 1) (by omega)
        exact ⟨e'', x'', by rwa [show k + (i + 1) = k + 1 + i by omega] at hi'⟩)
      (by rwa [show k + (n + 1) = k + 1 + n by omega] at hlast)
    rw [show k + (n + 1) = k + 1 + n by omega]
    rw [runBaseLoop, h0]
    simpa using hrec

/-- C7: the `BaseStrategy` retry loop — when no attempt raises, the
generator is invoked at least once and at most `r + 1` times (exactly
once when `retries = 0`); the loop stops early with
`(reply, true, none, none)` at the first attempt that validates; and
after exhausting every attempt it returns the last reply together with
the last short/long error pair. -/
theorem c7_base_retry (ask : Nat → Dict) (s : SchemaSpec) (r k : Nat) :
    ((∀ i, i ≤ r → promptValidate s (ask (k + i)) ≠ .error ()) →
       ∃ res k', runBase ask s r k = .ok (res, k') ∧
         k + 1 ≤ k' ∧ k' ≤ k + r + 1 ∧ (r = 0 → k' = k + 1)) ∧
    (∀ i, i ≤ r →
       (∀ j, j < i → ∃ e x, promptValidate s (ask (k + j)) = .ok (false, e, x)) →
       (∃ e x, promptValidate s (ask (k + i)) = .ok (true, e, x)) →
       runBase ask s r k = .ok ((ask (k + i), true, none, none), k + i + 1)) ∧
    (∀ e x,
       (∀ i, i < r → ∃ e' x', promptValidate s (ask (k + i)) = .ok (false, e', x')) →
       promptValidate s (ask (k + r)) = .ok (false, e, x) →
       runBase ask s r k = .ok ((ask (k + r), false, e, x), k + r + 1)) := by
  refine ⟨?_, ?_, ?_⟩
  · intro h
    obtain ⟨res, k', hrun, hlo, hhi⟩ := runBaseLoop_ok_bounds ask s r k h
    exact ⟨res, k', hrun, hlo, hhi, fun hr => by omega⟩
  · intro i hi hfail hvalid
    exact runBaseLoop_first_valid ask s r k i hi hfail hvalid
  · intro e x hfail hlast
    exact runBaseLoop_exhausted ask s r k e x hfail hlast

/-- C7 witness: against `askA` (two invalid replies, then valid ones)
with `retries = 2`, the loop stops at the third attempt with the valid
reply, and with `retries = 1` it exhausts and returns the second invalid
reply with its error pair. -/
theorem c7_base_retry_witness :
    runBase askA rnSchema 2 0 = .ok ((askA 2, true, none, none), 3) ∧
    runBase askA rnSchema 1 0 =
      .ok ((askA 1, false, some "\"x\" is invalid.",
            some "\"x\" number between 0 and 10"), 2) :=
  ⟨(c7_base_retry askA rnSchema 2 0).2.1 2 (by omega)
      (fun j hj => by
        interval_cases j
        · exact ⟨some "\"x\" is invalid.",
            some "\"x\" number between 0 and 10", rfl⟩
        · exact ⟨some "\"x\" is invalid.",
            some "\"x\" number between 0 and 10", rfl⟩)
      ⟨none, none, rfl⟩,
   (c7_base_retry askA rnSchema 1 0).2.2
      (some "\"x\" is invalid.") (some "\"x\" number between 0 and 10")
      (fun i hi => by
        interval_cases i
        exact ⟨some "\"x\" is invalid.",
          some "\"x\" number between 0 and 10", rfl⟩)
      rfl⟩

/-- The union alternatives loop neither raises (when no alternative's
validation raises) nor succeeds unless some alternative validates. -/
theorem validateAlts_spec (key : String) (v : Val) (pre : String) :
    ∀ alts : List Ty, (∀ t ∈ alts, validateValue key v t pre ≠ .error ()) →
      validateAlts key v alts pre ≠ .error () ∧
      (validateAlts key v alts pre = .ok none ↔
        ∃ t ∈ alts, validateValue key v t pre = .ok none) := by
  intro alts
  induction alts with
  | nil =>
    intro _
    refine ⟨by rw [validateAlts]; simp, ?_⟩
    rw [validateAlts]
    simp
  | cons t rest ih =>
    intro h
    have ht := h t (List.mem_cons_self _ _)
    have hrest := ih (fun t' ht' => h t' (List.mem_cons_of_mem _ ht'))
    cases hv : validateValue key v t pre with
    | error e =>
      cases e
      exact absurd hv ht
    | ok o =>
      cases o with
      | none =>
        rw [validateAlts, hv]
        simp [hv]
      | some err =>
        obtain ⟨es, el⟩ := err
        rw [validateAlts, hv]
        cases hr : validateAlts key v rest pre with
        | error e =>
          cases e
          exact absurd hr hrest.1
        | ok o2 =>
          cases o2 with
          | none =>
            simp only
            constructor
            · simp
            · rw [hr] at hrest
              simp only [List.mem_cons]
              constructor
              · intro _
                obtain ⟨t', ht', hval⟩ := hrest.2.mp rfl
                exact ⟨t', Or.inr ht', hval⟩
              · intro _
                trivial
          | some longs =>
            simp only
            constructor
            · simp
            · constructor
              · intro hc
                simp at hc
              · intro ⟨t', ht', hval⟩
                rcases List.mem_cons.mp ht' with heq | hm
                · subst heq
                  rw [hval] at hv
                  cases hv
                · exact absurd (hrest.2.mpr ⟨t', hm, hval⟩) (by rw [hr]; simp)

/-- When every alternative fails, the loop collects all the long
messages, in declaration order. -/
theorem validateAlts_all_fail (key : String) (v : Val) (pre : String) :
    ∀ {alts : List Ty} {es : List VErr},
      List.Forall₂ (fun t e => validateValue key v t pre = .ok (some e)) alts es →
      validateAlts key v alts pre = .ok (some (es.map Prod.snd)) := by
  intro alts es h
  induction h with
  | nil => rfl
  | @cons t e rest es' hv hrest ih =>
    obtain ⟨e1, e2⟩ := e
    rw [validateAlts, hv, ih]
    rfl

/-- C6: union validation semantics — when no alternative's validation
raises, a value validates against `UnionOf(alts)` iff at least one
alternative validates it; when every alternative fails, the short error
says the path matches none of the allowed alternatives and the long
error is the " or "-joined disjunction of all alternatives' long errors;
concretely, `UnionOf([integer, string])` accepts `42` and `"a"` and
rejects `[1]` with a long message naming both alternatives. -/
theorem c6_union_semantics (key pre : String) (v : Val) (alts : List Ty) :
    ((∀ t ∈ alts, validateValue key v t pre ≠ .error ()) →
       (validateValue key v (.unionOf alts) pre = .ok none ↔
         ∃ t ∈ alts, validateValue key v t pre = .ok none)) ∧
    (∀ es : List VErr,
       List.Forall₂ (fun t e => validateValue key v t pre = .ok (some e)) alts es →
       validateValue key v (.unionOf alts) pre =
         .ok (some ("\"" ++ (pre ++ key) ++ "\" matches none of the allowed alternatives.",
                    String.intercalate " or " (es.map Prod.snd)))) ∧
    (validateValue "a" (.int 42) (.unionOf [.prim .int, .prim .str]) "" = .ok none ∧
     validateValue "a" (.str "a") (.unionOf [.prim .int, .prim .str]) "" = .ok none ∧
     validateValue "a" (.list [.int 1]) (.unionOf [.prim .int, .prim .str]) "" =
       .ok (some ("\"a\" matches none of the allowed alternatives.",
                  "\"a\" must be integer or \"a\" must be string"))) := by
  refine ⟨?_, ?_, rfl, rfl, rfl⟩
  · intro h
    have hs := validateAlts_spec key v pre alts h
    rw [validateValue]
    cases hr : validateAlts key v alts pre with
    | error e =>
      cases e
      exact absurd hr hs.1
    | ok o =>
      cases o with
      | none =>
        rw [hr] at hs
        exact ⟨fun _ => hs.2.mp rfl, fun _ => rfl⟩
      | some longs =>
        rw [hr] at hs
        constructor
        · intro hc
          exact absurd hc (by simp)
        · intro hex
          exact absurd (hs.2.mpr hex) (by simp)
  · intro es hall
    rw [validateValue, validateAlts_all_fail key v pre hall]

/-- C6 witness: the iff and the all-fail error shape, instantiated at
`UnionOf([integer, string])` with `42` and `[1]`. -/
theorem c6_union_semantics_witness :
    (validateValue "a" (.int 42) (.unionOf [.prim .int, .prim .str]) "" = .ok none ↔
       ∃ t ∈ [Ty.prim .int, Ty.prim .str],
         validateValue "a" (.int 42) t "" = .ok none) ∧
    validateValue "a" (.list [.int 1]) (.unionOf [.prim .int, .prim .str]) "" =
      .ok (some ("\"" ++ ("" ++ "a") ++ "\" matches none of the allowed alternatives.",
                 String.intercalate " or "
                   ([(("\"a\" must be integer" : String), ("\"a\" must be integer" : String)),
                     (("\"a\" must be string" : String), ("\"a\" must be string" : String))].map Prod.snd))) :=
  ⟨(c6_union_semantics "a" "" (.int 42) [.prim .int, .prim .str]).1
      (by
        intro t ht
        fin_cases ht
        · exact fun h => Except.noConfusion
            ((show validateValue "a" (.int 42) (.prim .int) "" = .ok none from
               rfl).symm.trans h)
        · exact fun h => Except.noConfusion
            ((show validateValue "a" (.int 42) (.prim .str) "" =
                .ok (some ("\"a\" must be string", "\"a\" must be string")) from
               rfl).symm.trans h)),
   (c6_union_semantics "a" "" (.list [.int 1]) [.prim .int, .prim .str]).2.1
      [("\"a\" must be integer", "\"a\" must be integer"),
       ("\"a\" must be string", "\"a\" must be string")]
      (.cons rfl (.cons rfl .nil))⟩

/-- The unknown-key loop rejects the first undeclared key of `data`. -/
theorem unknownKeyError_first (flds : List (String × Ty)) :
    ∀ (pre : Dict) (key : String) (v : Val) (rest : Dict),
      (∀ p ∈ pre, flds.any (fun f => f.1 == p.1) = true) →
      flds.any (fun f => f.1 == key) = false →
      unknownKeyError flds (pre ++ (key, v) :: rest) =
        some ("\"" ++ key ++ "\" is not a valid field.",
              "\"" ++ key ++ "\" is not expected here.") := by
  intro pre
  induction pre with
  | nil =>
    intro key v rest _ hk
    rw [List.nil_append, unknownKeyError, if_neg (by simp [hk])]
  | cons hd tl ih =>
    intro key v rest hpre hk
    obtain ⟨k0, v0⟩ := hd
    have h0 := hpre (k0, v0) (by simp)
    rw [List.cons_append, unknownKeyError, if_pos (by simpa using h0)]
    exact ih key v rest (fun p hp => hpre p (by simp [hp])) hk

/-- The per-field loop returns success when every declared field
passes. -/
theorem validateFields_pass (data : Dict) :
    ∀ flds, (∀ f ∈ flds, FieldPasses data f) →
      validateFields data flds = .ok none := by
  intro flds
  induction flds with
  | nil => intro _; rfl
  | cons hd rest ih =>
    intro h
    obtain ⟨n, t⟩ := hd
    have hrec := ih (fun f hf => h f (List.mem_cons_of_mem _ hf))
    rcases h (n, t) (List.mem_cons_self _ _) with ⟨hget, hopt⟩ | ⟨v, hget, hval⟩
    · simp only at hget hopt
      simp [validateFields, hget, hopt, hrec]
    · simp only at hget hval
      simp [validateFields, hget, hval, hrec]

/-- The per-field loop reports the first failing declared field, in
declaration order, whatever comes after it. -/
theorem validateFields_first_fail (data : Dict) :
    ∀ (fs1 : List (String × Ty)) (x : String) (tx : Ty)
      (fs2 : List (String × Ty)) (e : VErr),
      (∀ f ∈ fs1, FieldPasses data f) →
      FieldFailsWith data (x, tx) e →
      validateFields data (fs1 ++ (x, tx) :: fs2) = .ok (some e) := by
  intro fs1
  induction fs1 with
  | nil =>
    intro x tx fs2 e _ hfail
    rcases hfail with ⟨hget, hopt, he⟩ | ⟨v, hget, hval⟩
    · simp only at hget hopt he
      subst he
      simp [validateFields, hget, hopt]
    · simp only at hget hval
      simp [validateFields, hget, hval]
  | cons hd tl ih =>
    intro x tx fs2 e hpass hfail
    obtain ⟨n, t⟩ := hd
    have hrec := ih x tx fs2 e (fun f hf => hpass f (List.mem_cons_of_mem _ hf)) hfail
    rcases hpass (n, t) (List.mem_cons_self _ _) with ⟨hget, hopt⟩ | ⟨v, hget, hval⟩
    · simp only at hget hopt
      simp [validateFields, hget, hopt, hrec]
    · simp only at hget hval
      simp [validateFields, hget, hval, hrec]

/-- The cross-field pass reports the first violated constraint, in
declaration order. -/
theorem validateCross_first (data : Dict) :
    ∀ (cs1 : List Constraint) (c : Constraint) (cs2 : List Constraint),
      (∀ c2 ∈ cs1, c2.pred data = true) → c.pred data = false →
      validateCross (cs1 ++ c :: cs2) data =
        some ("\"" ++ c.path ++ "\" violates constraint.",
              "\"" ++ c.path ++ "\" " ++ c.desc) := by
  intro cs1
  induction cs1 with
  | nil =>
    intro c cs2 _ hc
    simp [validateCross, hc]
  | cons c0 tl ih =>
    intro c cs2 hpass hc
    have h0 := hpass c0 (List.mem_cons_self _ _)
    simp [validateCross, h0]
    exact ih c cs2 (fun c2 h2 => hpass c2 (List.mem_cons_of_mem _ h2)) hc

/-- The cross-field pass succeeds when every constraint holds. -/
theorem validateCross_none (data : Dict) :
    ∀ cs : List Constraint, (∀ c ∈ cs, c.pred data = true) →
      validateCross cs data = none := by
  intro cs
  induction cs with
  | nil => intro _; rfl
  | cons c tl ih =>
    intro h
    simp [validateCross, h c (List.mem_cons_self _ _)]
    exact ih (fun c2 h2 => h c2 (List.mem_cons_of_mem _ h2))

/-- C5: record validation order and error priority — `validate_with_error`
first rejects the first key of `data` that is not declared (with the
`is not a valid field` pair); then checks the declared fields in
declaration order, reporting the missing-field pair for an absent
non-optional field or the field's own failure, and returns only the
first failure found whatever the later fields do; when every field
passes, the cross-field constraints run last, in declaration order, with
the `violates constraint.` short error and the constraint's description
as long error, and success is returned only when every check passes. -/
theorem c5_validate_order (flds : List (String × Ty)) (cs : List Constraint)
    (ov : List (String × Val)) (data : Dict) :
    (∀ pre key v rest, data = pre ++ (key, v) :: rest →
       (∀ p ∈ pre, flds.any (fun f => f.1 == p.1) = true) →
       flds.any (fun f => f.1 == key) = false →
       validateWithError (.mk flds cs ov) data =
         .ok (some ("\"" ++ key ++ "\" is not a valid field.",
                    "\"" ++ key ++ "\" is not expected here."))) ∧
    ((∀ p ∈ data, flds.any (fun f => f.1 == p.1) = true) →
       ∀ fs1 x tx fs2 e, flds = fs1 ++ (x, tx) :: fs2 →
         (∀ f ∈ fs1, FieldPasses data f) →
         FieldFailsWith data (x, tx) e →
         validateWithError (.mk flds cs ov) data = .ok (some e)) ∧
    ((∀ p ∈ data, flds.any (fun f => f.1 == p.1) = true) →
       (∀ f ∈ flds, FieldPasses data f) →
       validateWithError (.mk flds cs ov) data = .ok (validateCross cs data) ∧
       (∀ cs1 c cs2, cs = cs1 ++ c :: cs2 →
          (∀ c2 ∈ cs1, c2.pred data = true) → c.pred data = false →
          validateWithError (.mk flds cs ov) data =
            .ok (some ("\"" ++ c.path ++ "\" violates constraint.",
                       "\"" ++ c.path ++ "\" " ++ c.desc))) ∧
       ((∀ c ∈ cs, c.pred data = true) →
          validateWithError (.mk flds cs ov) data = .ok none)) := by
  refine ⟨?_, ?_, ?_⟩
  · intro pre key v rest hdata hpre hk
    subst hdata
    rw [validateWithError, unknownKeyError_first flds pre key v rest hpre hk]
  · intro hkeys fs1 x tx fs2 e hsplit hpass hfail
    have hu : unknownKeyError flds data = none := unknownKeyError_eq_none hkeys
    subst hsplit
    rw [validateWithError, hu,
        validateFields_first_fail data fs1 x tx fs2 e hpass hfail]
  · intro hkeys hpass
    have hu : unknownKeyError flds data = none := unknownKeyError_eq_none hkeys
    have hf : validateFields data flds = .ok none := validateFields_pass data flds hpass
    refine ⟨by rw [validateWithError, hu, hf], ?_, ?_⟩
    · intro cs1 c cs2 hsplit hcpass hc
      subst hsplit
      rw [validateWithError, hu, hf,
          validateCross_first data cs1 c cs2 hcpass hc]
    · intro hall
      rw [validateWithError, hu, hf, validateCross_none data cs hall]

/-- C5 witness: against the parity schema — an undeclared key `z` is
rejected first; with both fields invalid only the `x` violation is
reported; with valid fields the violated constraint anchored at `y` is
reported; and a fully conforming instance validates. -/
theorem c5_validate_order_witness :
    validateWithError paritySchema [("x", .int 1), ("z", .int 2)] =
      .ok (some ("\"z\" is not a valid field.", "\"z\" is not expected here.")) ∧
    validateWithError paritySchema [("x", .str "bad"), ("y", .str "bad")] =
      .ok (some ("\"x\" must be integer", "\"x\" must be integer")) ∧
    validateWithError paritySchema [("x", .int 42), ("y", .int 2)] =
      .ok (some ("\"y\" violates constraint.",
                 "\"y\" must be odd if x is even and vice versa")) ∧
    validateWithError paritySchema [("x", .int 42), ("y", .int 1)] = .ok none := by
  refine ⟨?_, ?_, ?_, ?_⟩
  · exact (c5_validate_order [("x", .prim .int), ("y", .prim .int)]
      [⟨"y", "must be odd if x is even and vice versa", parityPred, id⟩] []
      [("x", .int 1), ("z", .int 2)]).1
      [("x", .int 1)] "z" (.int 2) [] rfl
      (by
        intro p hp
        rcases List.mem_singleton.mp hp with rfl
        rfl)
      rfl
  · exact (c5_validate_order [("x", .prim .int), ("y", .prim .int)]
      [⟨"y", "must be odd if x is even and vice versa", parityPred, id⟩] []
      [("x", .str "bad"), ("y", .str "bad")]).2.1
      (by
        intro p hp
        rcases List.mem_cons.mp hp with rfl | hp2
        · rfl
        · rcases List.mem_singleton.mp hp2 with rfl
          rfl)
      [] "x" (.prim .int) [("y", .prim .int)]
      ("\"x\" must be integer", "\"x\" must be integer") rfl
      (by intro f hf; exact absurd hf (List.not_mem_nil f))
      (Or.inr ⟨.str "bad", rfl, rfl⟩)
  · exact ((c5_validate_order [("x", .prim .int), ("y", .prim .int)]
      [⟨"y", "must be odd if x is even and vice versa", parityPred, id⟩] []
      [("x", .int 42), ("y", .int 2)]).2.2
      (by
        intro p hp
        rcases List.mem_cons.mp hp with rfl | hp2
        · rfl
        · rcases List.mem_singleton.mp hp2 with rfl
          rfl)
      (by
        intro f hf
        rcases List.mem_cons.mp hf with rfl | hf2
        · exact Or.inr ⟨.int 42, rfl, rfl⟩
        · rcases List.mem_singleton.mp hf2 with rfl
          exact Or.inr ⟨.int 2, rfl, rfl⟩)).2.1
      [] ⟨"y", "must be odd if x is even and vice versa", parityPred, id⟩ [] rfl
      (by intro c2 h2; exact absurd h2 (List.not_mem_nil c2))
      rfl
  · exact ((c5_validate_order [("x", .prim .int), ("y", .prim .int)]
      [⟨"y", "must be odd if x is even and vice versa", parityPred, id⟩] []
      [("x", .int 42), ("y", .int 1)]).2.2
      (by
        intro p hp
        rcases List.mem_cons.mp hp with rfl | hp2
        · rfl
        · rcases List.mem_singleton.mp hp2 with rfl
          rfl)
      (by
        intro f hf
        rcases List.mem_cons.mp hf with rfl | hf2
        · exact Or.inr ⟨.int 42, rfl, rfl⟩
        · rcases List.mem_singleton.mp hf2 with rfl
          exact Or.inr ⟨.int 1, rfl, rfl⟩)).2.2
      (by
        intro c hc
        rcases List.mem_singleton.mp hc with rfl
        rfl)

/-- C1 counterexample: the self-validation claim is not universal — the
parity schema (a constraint declared with the default no-op fixup,
straight from the `@constraint` doctest) synthesizes `{x: 42, y: 42}`,
which violates its own cross-field constraint. -/
theorem c1_counterexample :
    validateWithError paritySchema (schemaExample paritySchema) ≠ .ok none ∧
    validateWithError paritySchema (schemaExample paritySchema) =
      .ok (some ("\"y\" violates constraint.",
                 "\"y\" must be odd if x is even and vice versa")) := by
  refine ⟨?_, rfl⟩
  rw [show validateWithError paritySchema (schemaExample paritySchema) =
      .ok (some ("\"y\" violates constraint.",
                 "\"y\" must be odd if x is even and vice versa")) from rfl]
  simp

/-- C1 (amended): `example()` builds one instance from each field's
type-level example, then applies every cross-field constraint's fixup in
declaration order, then applies explicit path-based overrides last; the
synthesized example self-validates for every schema whose rules'
examples satisfy themselves and whose (nested) schemas carry no
cross-field constraints or overrides — but not universally, since a
constraint whose fixup does not actually repair the draft leaves a
non-validating example. -/
theorem c1_example_self_validates (s : SchemaSpec) (h : exampleOkSchema s = true) :
    validateWithError s (schemaExample s) = .ok none ∧
    ∀ flds cs ov, schemaExample (.mk flds cs ov) =
      applyOverrides ov (applyFixes cs (exampleFields flds)) :=
  ⟨schemaExample_valid s h, fun _ _ _ => rfl⟩

/-- C1 witness: the constraint-free schema exercising every descriptor
shape self-validates its synthesized example. -/
theorem c1_example_self_validates_witness :
    exampleOkSchema richSchema = true ∧
    validateWithError richSchema (schemaExample richSchema) = .ok none :=
  ⟨rfl, (c1_example_self_validates richSchema rfl).1⟩

end MateStrategy
